import Mathlib

/-!
Verification of the navbatuz per-organization ticket queue engine.

The definitions below are a shallow embedding of the queue engine found in
the main server file (the `org_state` / `tickets` tables and the request
handlers `POST /api/take`, `GET /api/ticket`, `POST /api/cancel`,
`POST /api/ticket/served`, `POST /api/admin/next`, together with the
helpers `computeAvgServiceSec`, `validateOrgId` and
`autoUpdateTicketStatusIfNeeded`).

Modelling choices:
- The database state for one organization is `OrgDB`: the optional
  `org_state` row plus the list of ticket rows.  All handlers run their
  transaction sequentially (per-organization serializability is the
  documented isolation level), so an operation is a function
  `OrgDB -> OrgDB × response`.
- SQL timestamps are integers (milliseconds); `now()` is passed in as an
  explicit `now` argument.
- Ticket UUIDs are modelled as `Nat`, with `0` playing the role of the
  empty/falsy identifier in JavaScript truthiness guards.
- JavaScript `Math.round (a / b)` for an integer `a` and positive integer
  `b` is `jsRoundDiv a b` (floor of `a / b + 1/2`, ties toward +infinity,
  exactly the JS semantics).
-/

inductive TicketStatus
  | waiting
  | missed
  | served
  | cancelled
  deriving DecidableEq, Repr

structure OrgState where
  nextNumber : Int
  currentNumber : Int
  updatedAt : Int
  deriving DecidableEq, Repr

structure Ticket where
  id : Nat
  orgId : String
  number : Int
  status : TicketStatus
  createdAt : Int
  updatedAt : Int
  servedAt : Option Int
  deriving DecidableEq, Repr

structure OrgDB where
  st : Option OrgState
  tickets : List Ticket
  deriving DecidableEq, Repr

/-- JavaScript `Math.round (a / b)` for integer `a` and positive `b`:
floor of `a/b + 1/2`, with ties rounded toward positive infinity
(`Int` division is Euclidean division, which is floor division for a
positive divisor). -/
def jsRoundDiv (a b : Int) : Int :=
  (2 * a + b) / (2 * b)

/-- The plausibility window of `computeAvgServiceSec`:
`d > 5 && d < 21600` (between 5 seconds and 6 hours, both excluded). -/
def plausibleSec (d : Int) : Bool :=
  decide (5 < d) && decide (d < 21600)

/-- All consecutive differences `Math.round((times[i] - times[i+1])/1000)`
of a list of millisecond timestamps. -/
def consecDiffsSec : List Int → List Int
  | t0 :: t1 :: rest => jsRoundDiv (t0 - t1) 1000 :: consecDiffsSec (t1 :: rest)
  | _ => []

/-- The collection loop of `computeAvgServiceSec`: walk over consecutive
pairs, keep plausible differences, and break out as soon as 4 have been
collected (`if (diffsSec.length >= 4) break`). -/
def collectDiffsSec : List Int → List Int → List Int
  | t0 :: t1 :: rest, acc =>
    let d := jsRoundDiv (t0 - t1) 1000
    let acc2 := if plausibleSec d then acc ++ [d] else acc
    if 4 ≤ acc2.length then acc2 else collectDiffsSec (t1 :: rest) acc2
  | _, acc => acc

/-- `computeAvgServiceSec`, translated from the source: take the (up to) 6
newest `served_at` timestamps (the SQL `LIMIT 6`, the input list is the
full descending list), require at least 3 timestamps, collect plausible
consecutive differences (stopping at 4), require at least 3 of them, and
return the rounded mean.  `none` models the JS `null`. -/
def computeAvgServiceSec (servedDesc : List Int) : Option Int :=
  let times := servedDesc.take 6
  if times.length < 3 then none
  else
    let diffsSec := collectDiffsSec times []
    if diffsSec.length < 3 then none
    else some (jsRoundDiv diffsSec.sum diffsSec.length)

/-- The estimator exactly as the claim words it (formalization of the
claimed behaviour, for comparison with `computeAvgServiceSec`): every
consecutive difference inside the plausibility window is retained, at
least 3 plausible differences are required, and the result is the rounded
mean of all of them — with no cap on how many are retained. -/
def computeAvgClaimedSpec (servedDesc : List Int) : Option Int :=
  let diffs := (consecDiffsSec (servedDesc.take 6)).filter plausibleSec
  if diffs.length < 3 then none
  else some (jsRoundDiv diffs.sum diffs.length)

/-- The estimator as the amended claim words it: like `computeAvgClaimedSpec`
but only the 4 newest plausible differences are retained. -/
def computeAvgCappedSpec (servedDesc : List Int) : Option Int :=
  let diffs := ((consecDiffsSec (servedDesc.take 6)).filter plausibleSec).take 4
  if diffs.length < 3 then none
  else some (jsRoundDiv diffs.sum diffs.length)

/-- Insert into a descending-sorted list of timestamps. -/
def insertDescInt (x : Int) : List Int → List Int
  | [] => [x]
  | y :: ys => if y < x then x :: y :: ys else y :: insertDescInt x ys

/-- Sort a list of timestamps in descending order
(models `ORDER BY served_at DESC`). -/
def sortDescInt : List Int → List Int
  | [] => []
  | x :: xs => insertDescInt x (sortDescInt xs)

/-- The `served_at` timestamps of served tickets, newest first (the SQL
`SELECT served_at FROM tickets WHERE status='served' AND served_at IS NOT
NULL ORDER BY served_at DESC`). -/
def servedTimesDesc (tickets : List Ticket) : List Int :=
  sortDescInt (tickets.filterMap (fun t =>
    if t.status = TicketStatus.served then t.servedAt else none))

/-- `validateOrgId(geo, orgId)`: the geo catalog is a map from unit keys to
lists of organization ids; the check walks every entry looking for the id.
An empty string is falsy and rejected up front. -/
def validateOrgId (geo : List (String × List String)) (orgId : String) : Bool :=
  if orgId = "" then false
  else geo.any (fun kv => kv.2.any (fun oid => oid == orgId))

structure TakeResp where
  ticketId : Nat
  number : Int
  nowServing : Int
  lastNumber : Int
  avgServiceSec : Option Int
  remaining : Int
  etaMinutes : Option Int
  deriving DecidableEq, Repr

inductive TakeResult
  | invalidOrg
  | okTake (resp : TakeResp)
  deriving DecidableEq, Repr

/-- The initial `org_state` row inserted by
`INSERT INTO org_state (org_id) VALUES ($1) ON CONFLICT DO NOTHING`
(defaults `next_number = 1`, `current_number = 0`). -/
def freshOrgState (now : Int) : OrgState :=
  { nextNumber := 1, currentNumber := 0, updatedAt := now }

/-- `POST /api/take`: validate the organization against the geo catalog,
then in one transaction ensure the `org_state` row, read the counters
(`FOR UPDATE`), insert a ticket with `number = next_number` and the
default status `waiting`, and increment `next_number`.  The response
carries `nowServing = current_number + 1`, `lastNumber` = the pre-increment
`next_number`, the estimator output, and
`etaMinutes = Math.round(max(0, number - nowServing) * avg / 60)`
when the estimator value is truthy, else `null`. -/
def apiTake (geo : List (String × List String)) (orgId : String)
    (db : OrgDB) (newId : Nat) (now : Int) : OrgDB × TakeResult :=
  if ¬ validateOrgId geo orgId then (db, TakeResult.invalidOrg)
  else
    let st0 := db.st.getD (freshOrgState now)
    let nextNumber := st0.nextNumber
    let currentNumber := st0.currentNumber
    let ticket : Ticket :=
      { id := newId, orgId := orgId, number := nextNumber,
        status := TicketStatus.waiting, createdAt := now, updatedAt := now,
        servedAt := none }
    let db2 : OrgDB :=
      { st := some { st0 with nextNumber := st0.nextNumber + 1, updatedAt := now },
        tickets := db.tickets ++ [ticket] }
    let nowServing := currentNumber + 1
    let avg := computeAvgServiceSec (servedTimesDesc db2.tickets)
    let remaining := max 0 (ticket.number - nowServing)
    let eta := if avg.getD 0 = 0 then none
               else some (jsRoundDiv (remaining * avg.getD 0) 60)
    (db2, TakeResult.okTake
      { ticketId := newId, number := nextNumber, nowServing := nowServing,
        lastNumber := nextNumber, avgServiceSec := avg,
        remaining := remaining, etaMinutes := eta })

/-- The ticket number answered by `apiTake`, `0` on a validation error
(unused: only quoted under a validity hypothesis). -/
def takeRespNumber : TakeResult → Int
  | TakeResult.okTake resp => resp.number
  | TakeResult.invalidOrg => 0

/-- The `nextNumber` that the next issuance will effectively use
(the stored counter, or the column default `1` if the row is missing). -/
def effNext (db : OrgDB) : Int :=
  (db.st.getD (freshOrgState 0)).nextNumber

/-- The stored `current_number` (column default `0` if the row is missing). -/
def effCur (db : OrgDB) : Int :=
  (db.st.getD (freshOrgState 0)).currentNumber

/-- The numbers handed out by `n` back-to-back issuances. -/
def takeNumbers (geo : List (String × List String)) (orgId : String) :
    Nat → OrgDB → List Int
  | 0, _ => []
  | n + 1, db =>
    let r := apiTake geo orgId db 0 0
    takeRespNumber r.2 :: takeNumbers geo orgId n r.1

/-- `autoUpdateTicketStatusIfNeeded`, as a pure function on the ticket
status.  The truthiness guard of the source
(`if (!ticketId || !orgId || !number || !Number.isFinite(nowServing)) return null`)
is kept: id `0` and the empty string are the falsy values; `nowServing`
is always a finite integer here.  `diff <= 0` leaves the status alone;
`0 < diff <= 5` turns `waiting` into `missed`; `diff > 5` turns `waiting`
or `missed` into `cancelled`; nothing else is ever touched. -/
def autoUpdateTicketStatusIfNeeded (ticketId : Nat) (orgId : String)
    (number nowServing : Int) (status : TicketStatus) : TicketStatus :=
  if ticketId = 0 ∨ orgId = "" ∨ number = 0 then status
  else
    let diff := nowServing - number
    if diff ≤ 0 then status
    else if diff ≤ 5 then
      (if status = TicketStatus.waiting then TicketStatus.missed else status)
    else
      (if status = TicketStatus.waiting ∨ status = TicketStatus.missed
       then TicketStatus.cancelled else status)

/-- One ticket row after the reconciliation `UPDATE`: the status becomes
`autoUpdateTicketStatusIfNeeded ...` and `updated_at` is stamped exactly
when the `UPDATE`'s `WHERE` clause matched (i.e. when the status changed). -/
def reconcileOne (ticketId : Nat) (orgId : String)
    (number nowServing now : Int) (t : Ticket) : Ticket :=
  let s2 := autoUpdateTicketStatusIfNeeded ticketId orgId number nowServing t.status
  if s2 = t.status then t else { t with status := s2, updatedAt := now }

/-- `SELECT ... WHERE org_id=$1 AND number=$2 ORDER BY created_at DESC
LIMIT 1`: the newest ticket carrying this number. -/
def latestByNumber (tickets : List Ticket) (number : Int) : Option Ticket :=
  (tickets.filter (fun t => decide (t.number = number))).foldl
    (fun acc t =>
      match acc with
      | none => some t
      | some u => if u.createdAt < t.createdAt then some t else acc) none

/-- The state effect of `GET /api/ticket?orgId=...&number=...`: ensure the
`org_state` row exists, and if a ticket number was supplied and resolves
to a row, lazily reconcile that row against `nowServing = current_number + 1`. -/
def apiTicketGetReconcile (db : OrgDB) (orgId : String) (number : Int)
    (now : Int) : OrgDB :=
  if orgId = "" then db
  else
    let db1 : OrgDB := { db with st := some (db.st.getD (freshOrgState now)) }
    if number = 0 then db1
    else
      let currentNumber := ((db1.st.map OrgState.currentNumber).getD 0)
      let nowServing := currentNumber + 1
      match latestByNumber db1.tickets number with
      | none => db1
      | some row =>
        { db1 with tickets := db1.tickets.map (fun t =>
            if t.id = row.id
            then reconcileOne row.id row.orgId row.number nowServing now t
            else t) }

inductive CancelResult
  | badRequest
  | okCancelled (cancelled : Bool)
  deriving DecidableEq, Repr

/-- The row-level effect of the cancellation `UPDATE`: only a `waiting` or
`missed` ticket with the addressed organization and number is turned into
`cancelled` (and its `updated_at` stamped); every other row is untouched. -/
def cancelUpdate (orgId : String) (number : Int) (now : Int) (t : Ticket) : Ticket :=
  if t.orgId = orgId ∧ t.number = number ∧
     (t.status = TicketStatus.waiting ∨ t.status = TicketStatus.missed)
  then { t with status := TicketStatus.cancelled, updatedAt := now }
  else t

/-- `POST /api/cancel`: guard the parameters, run the conditional `UPDATE`,
and answer `ok: true` with `cancelled` = whether any row matched
(`RETURNING id` row count truthiness).  `org_state` is never touched. -/
def apiCancel (db : OrgDB) (orgId : String) (number : Int) (now : Int) :
    OrgDB × CancelResult :=
  if orgId = "" ∨ number = 0 then (db, CancelResult.badRequest)
  else
    let hit := db.tickets.any (fun t =>
      decide (t.orgId = orgId ∧ t.number = number ∧
        (t.status = TicketStatus.waiting ∨ t.status = TicketStatus.missed)))
    ({ db with tickets := db.tickets.map (cancelUpdate orgId number now) },
     CancelResult.okCancelled hit)

inductive ServedResult
  | badRequest
  | notFound
  | alreadyServed
  | servedNow (currentNumber nowServing lastNumber : Int)
  deriving DecidableEq, Repr

/-- The row-level effect of `UPDATE tickets SET status='served',
served_at=now(), updated_at=now() WHERE id=$1`. -/
def serveById (ticketId : Nat) (now : Int) (t : Ticket) : Ticket :=
  if t.id = ticketId
  then { t with status := TicketStatus.served, servedAt := some now, updatedAt := now }
  else t

/-- `POST /api/ticket/served`: look the ticket up by id (`FOR UPDATE`);
404 if absent; if it is already `served`, commit without touching anything
and answer success; otherwise mark it `served` (stamping `served_at`),
read the counters, and increment `current_number` exactly when the
ticket's number equals `nowServing = current_number + 1`. -/
def apiTicketServed (db : OrgDB) (ticketId : Nat) (now : Int) :
    OrgDB × ServedResult :=
  if ticketId = 0 then (db, ServedResult.badRequest)
  else
    match db.tickets.find? (fun t => t.id == ticketId) with
    | none => (db, ServedResult.notFound)
    | some ticket =>
      if ticket.status = TicketStatus.served then (db, ServedResult.alreadyServed)
      else
        let tickets2 := db.tickets.map (serveById ticketId now)
        let currentNumber := (db.st.map OrgState.currentNumber).getD 0
        let nextNumber := (db.st.map OrgState.nextNumber).getD 1
        let nowServing := currentNumber + 1
        if ticket.number = nowServing then
          ({ st := db.st.map (fun s =>
               { s with currentNumber := s.currentNumber + 1, updatedAt := now }),
             tickets := tickets2 },
           ServedResult.servedNow (currentNumber + 1) (currentNumber + 2)
             (max 0 (nextNumber - 1)))
        else
          ({ st := db.st, tickets := tickets2 },
           ServedResult.servedNow currentNumber (currentNumber + 1)
             (max 0 (nextNumber - 1)))

inductive NextResult
  | badRequest
  | orgNotFound
  | advanced (currentNumber nowServing lastNumber : Int) (avgServiceSec : Option Int)
  | emptyQueue (currentNumber nowServing lastNumber : Int)
  deriving DecidableEq, Repr

/-- Whether an admin-next response went out with `ok: true`. -/
def nextResultOk : NextResult → Bool
  | NextResult.advanced _ _ _ _ => true
  | NextResult.emptyQueue _ _ _ => true
  | _ => false

/-- The row-level effect of `UPDATE tickets SET status='served', ...
WHERE org_id=$1 AND number=$2 AND status IN ('waiting','missed')` used by
the admin advance. -/
def serveTicketAt (servingNow : Int) (now : Int) (t : Ticket) : Ticket :=
  if t.number = servingNow ∧
     (t.status = TicketStatus.waiting ∨ t.status = TicketStatus.missed)
  then { t with status := TicketStatus.served, servedAt := some now, updatedAt := now }
  else t

/-- `POST /api/admin/next`: 404 when the `org_state` row is missing; when
`servingNow = current_number + 1 < next_number` there is a pending ticket:
it is marked served (if still `waiting`/`missed`) and `current_number` is
incremented; otherwise the handler commits unchanged and answers
`ok: true` with the message "Navbat bo'sh" (queue empty). -/
def apiAdminNext (db : OrgDB) (orgId : String) (now : Int) : OrgDB × NextResult :=
  if orgId = "" then (db, NextResult.badRequest)
  else
    match db.st with
    | none => (db, NextResult.orgNotFound)
    | some st =>
      let currentNumber := st.currentNumber
      let nextNumber := st.nextNumber
      let servingNow := currentNumber + 1
      if servingNow < nextNumber then
        let tickets2 := db.tickets.map (serveTicketAt servingNow now)
        ({ st := some { st with currentNumber := st.currentNumber + 1, updatedAt := now },
           tickets := tickets2 },
         NextResult.advanced (currentNumber + 1) (currentNumber + 2)
           (max 0 (nextNumber - 1))
           (computeAvgServiceSec (servedTimesDesc tickets2)))
      else
        (db, NextResult.emptyQueue currentNumber (currentNumber + 1)
          (max 0 (nextNumber - 1)))

/-- A core operation, as driven by the HTTP handlers, against one
organization ("o").  `issue` with `valid := false` models a request whose
`orgId` fails the geo-catalog check. -/
inductive Op
  | issue (valid : Bool) (newId : Nat) (now : Int)
  | advance (now : Int)
  | markServed (ticketId : Nat) (now : Int)
  | cancelTicket (number : Int) (now : Int)
  | reconcile (number : Int) (now : Int)
  deriving DecidableEq, Repr

/-- A one-entry geo catalog under which organization "o" is valid. -/
def geoOK : List (String × List String) := [("u", ["o"])]

/-- State effect of one operation. -/
def stepOp (db : OrgDB) : Op → OrgDB
  | Op.issue valid newId now =>
    (apiTake (if valid then geoOK else []) "o" db newId now).1
  | Op.advance now => (apiAdminNext db "o" now).1
  | Op.markServed ticketId now => (apiTicketServed db ticketId now).1
  | Op.cancelTicket number now => (apiCancel db "o" number now).1
  | Op.reconcile number now => apiTicketGetReconcile db "o" number now

/-- Run a sequence of operations. -/
def runOps (ops : List Op) (db : OrgDB) : OrgDB :=
  ops.foldl stepOp db

/-- The empty database: no `org_state` row, no tickets. -/
def dbInit : OrgDB := { st := none, tickets := [] }

/-- The counter invariant the code actually maintains: while the
`org_state` row is missing there are no tickets; once it exists, every
issued ticket number is at most `next_number - 1` and
`current_number + 1 <= next_number`. -/
def checkInv (db : OrgDB) : Bool :=
  match db.st with
  | none => db.tickets.isEmpty
  | some st =>
    decide (st.currentNumber + 1 ≤ st.nextNumber) &&
    db.tickets.all (fun t => decide (t.number + 1 ≤ st.nextNumber))

/-- The counter invariant exactly as the spec claims it (P2/I1):
`next_number >= current_number + 2`, together with the ticket bound. -/
def invariantClaimed (db : OrgDB) : Bool :=
  match db.st with
  | none => db.tickets.isEmpty
  | some st =>
    decide (st.currentNumber + 2 ≤ st.nextNumber) &&
    db.tickets.all (fun t => decide (t.number + 1 ≤ st.nextNumber))

/-! ### Helper lemmas -/

theorem consecDiffsSec_length (l : List Int) :
    (consecDiffsSec l).length = l.length - 1 := by
  induction l with
  | nil => simp [consecDiffsSec]
  | cons x xs ih =>
    cases xs with
    | nil => simp [consecDiffsSec]
    | cons y ys =>
      simp only [consecDiffsSec, List.length_cons] at ih ⊢
      omega

theorem collectDiffsSec_eq_take (l : List Int) (acc : List Int)
    (h : acc.length < 4) :
    collectDiffsSec l acc = (acc ++ (consecDiffsSec l).filter plausibleSec).take 4 := by
  induction l generalizing acc with
  | nil =>
    simp only [collectDiffsSec, consecDiffsSec, List.filter_nil, List.append_nil]
    exact (List.take_of_length_le (by omega)).symm
  | cons x xs ih =>
    cases xs with
    | nil =>
      simp only [collectDiffsSec, consecDiffsSec, List.filter_nil, List.append_nil]
      exact (List.take_of_length_le (by omega)).symm
    | cons y ys =>
      simp only [collectDiffsSec, consecDiffsSec, List.filter_cons]
      by_cases hp : plausibleSec (jsRoundDiv (x - y) 1000)
      · simp only [hp, if_true]
        rw [show jsRoundDiv (x - y) 1000 ::
              List.filter plausibleSec (consecDiffsSec (y :: ys))
            = [jsRoundDiv (x - y) 1000] ++
              List.filter plausibleSec (consecDiffsSec (y :: ys)) from rfl,
          ← List.append_assoc]
        by_cases hb : 4 ≤ (acc ++ [jsRoundDiv (x - y) 1000]).length
        · rw [if_pos hb]
          exact (List.take_left' (by simp at hb ⊢; omega)).symm
        · rw [if_neg hb, ih _ (by simp at hb ⊢; omega)]
      · simp only [hp, if_false, Bool.false_eq_true]
        rw [if_neg (by omega), ih _ h]

/-! ### C2 and C9: lazy reconciliation -/

/-- C2: lazy reconciliation of a single ticket.  With truthy identifiers
and a nonzero ticket number (every issued ticket has `number >= 1`), and
`behind = nowServing - number`: `behind <= 0` changes nothing; for
`0 < behind <= 5` a `waiting` ticket becomes `missed` and any other
status is untouched; for `behind > 5` a `waiting` or `missed` ticket
becomes `cancelled`; a ticket in any other status is never changed. -/
theorem reconcile_single_ticket_rules (ticketId : Nat) (orgId : String)
    (number nowServing : Int) (s : TicketStatus)
    (hid : ticketId ≠ 0) (horg : orgId ≠ "") (hnum : number ≠ 0) :
    (nowServing - number ≤ 0 →
      autoUpdateTicketStatusIfNeeded ticketId orgId number nowServing s = s)
    ∧ (0 < nowServing - number → nowServing - number ≤ 5 →
        s = TicketStatus.waiting →
      autoUpdateTicketStatusIfNeeded ticketId orgId number nowServing s
        = TicketStatus.missed)
    ∧ (0 < nowServing - number → nowServing - number ≤ 5 →
        s ≠ TicketStatus.waiting →
      autoUpdateTicketStatusIfNeeded ticketId orgId number nowServing s = s)
    ∧ (5 < nowServing - number →
        (s = TicketStatus.waiting ∨ s = TicketStatus.missed) →
      autoUpdateTicketStatusIfNeeded ticketId orgId number nowServing s
        = TicketStatus.cancelled)
    ∧ (s ≠ TicketStatus.waiting → s ≠ TicketStatus.missed →
      autoUpdateTicketStatusIfNeeded ticketId orgId number nowServing s = s) := by
  have hg : ¬ (ticketId = 0 ∨ orgId = "" ∨ number = 0) := by
    push_neg
    exact ⟨hid, horg, hnum⟩
  have key : autoUpdateTicketStatusIfNeeded ticketId orgId number nowServing s
      = (if nowServing - number ≤ 0 then s
         else if nowServing - number ≤ 5 then
           (if s = TicketStatus.waiting then TicketStatus.missed else s)
         else
           (if s = TicketStatus.waiting ∨ s = TicketStatus.missed
            then TicketStatus.cancelled else s)) := by
    simp [autoUpdateTicketStatusIfNeeded, hg]
  refine ⟨?_, ?_, ?_, ?_, ?_⟩
  · intro h0
    rw [key, if_pos h0]
  · intro h0 h5 hs
    rw [key, if_neg (by omega), if_pos (by omega), if_pos hs]
  · intro h0 h5 hs
    rw [key, if_neg (by omega), if_pos (by omega), if_neg hs]
  · intro h5 hs
    rw [key, if_neg (by omega), if_neg (by omega), if_pos hs]
  · intro hw hm
    rw [key]
    split_ifs <;> simp_all

/-- Closed witness for `reconcile_single_ticket_rules`. -/
theorem reconcile_single_ticket_rules_witness :
    autoUpdateTicketStatusIfNeeded 1 "o" 1 3 TicketStatus.waiting
      = TicketStatus.missed :=
  (reconcile_single_ticket_rules 1 "o" 1 3 TicketStatus.waiting
    (by decide) (by decide) (by decide)).2.1 (by decide) (by decide) rfl

/-- C9 (P3): reconciling the same ticket twice against the same
`nowServing` gives the same status as reconciling once — the second pass
is a no-op in every case (including the guard cases). -/
theorem reconcile_idempotent (ticketId : Nat) (orgId : String)
    (number nowServing : Int) (s : TicketStatus) :
    autoUpdateTicketStatusIfNeeded ticketId orgId number nowServing
      (autoUpdateTicketStatusIfNeeded ticketId orgId number nowServing s)
    = autoUpdateTicketStatusIfNeeded ticketId orgId number nowServing s := by
  by_cases hg : ticketId = 0 ∨ orgId = "" ∨ number = 0
  · simp [autoUpdateTicketStatusIfNeeded, hg]
  · by_cases h0 : nowServing - number ≤ 0
    · simp [autoUpdateTicketStatusIfNeeded, hg, h0]
    · by_cases h5 : nowServing - number ≤ 5
      · cases s <;> simp [autoUpdateTicketStatusIfNeeded, hg, h0, h5]
      · cases s <;> simp [autoUpdateTicketStatusIfNeeded, hg, h0, h5]

/-! ### C4: the service-time estimator -/

/-- C4 counterexample: six served timestamps (milliseconds, newest first)
whose five consecutive differences are 10, 10, 10, 10 and 30 seconds —
all plausible.  The code caps collection at 4 differences and answers
10 s, while the claimed mean over all retained plausible differences is
70 / 5 = 14 s. -/
theorem estimator_uncapped_mean_counterexample :
    computeAvgServiceSec [70000, 60000, 50000, 40000, 30000, 0] = some 10 ∧
    computeAvgClaimedSpec [70000, 60000, 50000, 40000, 30000, 0] = some 14 := by
  constructor <;> decide

/-- C4 (amended): the estimator retains at most the 4 newest plausible
consecutive differences of the up-to-6 newest `served_at` timestamps
(differences outside the open window (5 s, 6 h) are discarded), answers
unknown when fewer than 3 plausible differences were retained, and
otherwise answers the mean of the retained differences rounded to the
nearest second. -/
theorem estimator_eq_capped_mean (l : List Int) :
    computeAvgServiceSec l = computeAvgCappedSpec l := by
  unfold computeAvgServiceSec computeAvgCappedSpec
  by_cases h3 : (l.take 6).length < 3
  · rw [if_pos h3, if_pos ?_]
    have h1 := consecDiffsSec_length (l.take 6)
    have h2 := List.length_filter_le plausibleSec (consecDiffsSec (l.take 6))
    have h4 := List.length_take 4 ((consecDiffsSec (l.take 6)).filter plausibleSec)
    omega
  · rw [if_neg h3, collectDiffsSec_eq_take _ [] (by simp)]
    simp

/-! ### C3: admin advancement -/

/-- C3 counterexample: on an empty queue (`nowServing = 1 > lastNumber = 0`)
the advance handler does not report an error — it answers `ok: true`
with a "queue empty" message and unchanged counters, i.e. a silent
success rather than a reported `NoPendingTicket` failure. -/
theorem adminNext_empty_silent_ok_counterexample :
    apiAdminNext { st := some { nextNumber := 1, currentNumber := 0, updatedAt := 0 },
                   tickets := [] } "o" 7
      = ({ st := some { nextNumber := 1, currentNumber := 0, updatedAt := 0 },
           tickets := [] }, NextResult.emptyQueue 0 1 0)
    ∧ nextResultOk (NextResult.emptyQueue 0 1 0) = true := by
  constructor <;> rfl

/-- C3 (amended): when `nowServing = currentNumber + 1 <= lastNumber
= nextNumber - 1`, the ticket numbered `nowServing` is marked `served`
(when still `waiting` or `missed`, with `served_at` stamped) and
`current_number` is incremented; when `nowServing > lastNumber` the
handler leaves the database unchanged and answers an `ok: true`
"queue empty" response (distinguishable from an advancement response by
its constructor), not an error. -/
theorem adminNext_spec (db : OrgDB) (st : OrgState) (orgId : String) (now : Int)
    (horg : orgId ≠ "") (hst : db.st = some st) :
    (st.currentNumber + 1 < st.nextNumber →
      (apiAdminNext db orgId now).1.st
          = some { st with currentNumber := st.currentNumber + 1, updatedAt := now } ∧
      (apiAdminNext db orgId now).1.tickets
          = db.tickets.map (serveTicketAt (st.currentNumber + 1) now) ∧
      (∀ t : Ticket, t.number = st.currentNumber + 1 →
        (t.status = TicketStatus.waiting ∨ t.status = TicketStatus.missed) →
        serveTicketAt (st.currentNumber + 1) now t
          = { t with status := TicketStatus.served, servedAt := some now,
                     updatedAt := now }) ∧
      (apiAdminNext db orgId now).2
          = NextResult.advanced (st.currentNumber + 1) (st.currentNumber + 2)
              (max 0 (st.nextNumber - 1))
              (computeAvgServiceSec (servedTimesDesc
                (db.tickets.map (serveTicketAt (st.currentNumber + 1) now)))))
    ∧ (st.nextNumber ≤ st.currentNumber + 1 →
      apiAdminNext db orgId now
        = (db, NextResult.emptyQueue st.currentNumber (st.currentNumber + 1)
            (max 0 (st.nextNumber - 1))) ∧
      nextResultOk (apiAdminNext db orgId now).2 = true) := by
  have e : apiAdminNext db orgId now
      = (if st.currentNumber + 1 < st.nextNumber then
          ({ st := some { st with currentNumber := st.currentNumber + 1,
                                  updatedAt := now },
             tickets := db.tickets.map (serveTicketAt (st.currentNumber + 1) now) },
           NextResult.advanced (st.currentNumber + 1) (st.currentNumber + 2)
             (max 0 (st.nextNumber - 1))
             (computeAvgServiceSec (servedTimesDesc
               (db.tickets.map (serveTicketAt (st.currentNumber + 1) now)))))
         else
          (db, NextResult.emptyQueue st.currentNumber (st.currentNumber + 1)
            (max 0 (st.nextNumber - 1)))) := by
    simp [apiAdminNext, horg, hst]
  constructor
  · intro h
    rw [e, if_pos h]
    refine ⟨rfl, rfl, ?_, rfl⟩
    intro t h1 h2
    simp [serveTicketAt, h1, h2]
  · intro h
    rw [e, if_neg (by omega)]
    exact ⟨rfl, rfl⟩

/-- Closed witness for `adminNext_spec`: advancing with one waiting ticket
serves it and moves the counter to 1. -/
theorem adminNext_spec_witness :
    (apiAdminNext { st := some { nextNumber := 2, currentNumber := 0, updatedAt := 0 },
                    tickets := [{ id := 1, orgId := "o", number := 1,
                                  status := TicketStatus.waiting, createdAt := 0,
                                  updatedAt := 0, servedAt := none }] } "o" 5).1.st
      = some { nextNumber := 2, currentNumber := 1, updatedAt := 5 } :=
  ((adminNext_spec
    { st := some { nextNumber := 2, currentNumber := 0, updatedAt := 0 },
      tickets := [{ id := 1, orgId := "o", number := 1,
                    status := TicketStatus.waiting, createdAt := 0,
                    updatedAt := 0, servedAt := none }] }
    { nextNumber := 2, currentNumber := 0, updatedAt := 0 }
    "o" 5 (by decide) rfl).1 (by decide)).1

/-! ### C7: self-service cancellation -/

/-- C7: cancellation by number only moves a `waiting`/`missed` ticket with
the addressed number to `cancelled`; a terminal or missing ticket yields
an `ok` answer with `cancelled = false` and an unchanged database; the
`org_state` counters are never touched. -/
theorem cancel_spec (db : OrgDB) (orgId : String) (number : Int) (now : Int)
    (horg : orgId ≠ "") (hnum : number ≠ 0) :
    (apiCancel db orgId number now).1.st = db.st ∧
    (apiCancel db orgId number now).1.tickets
        = db.tickets.map (cancelUpdate orgId number now) ∧
    (apiCancel db orgId number now).2 = CancelResult.okCancelled
        (db.tickets.any (fun t => decide (t.orgId = orgId ∧ t.number = number ∧
          (t.status = TicketStatus.waiting ∨ t.status = TicketStatus.missed)))) ∧
    (∀ t : Ticket,
      (t.status ≠ TicketStatus.waiting ∧ t.status ≠ TicketStatus.missed) ∨
        t.number ≠ number ∨ t.orgId ≠ orgId →
      cancelUpdate orgId number now t = t) ∧
    (db.tickets.all (fun t => !decide (t.orgId = orgId ∧ t.number = number ∧
        (t.status = TicketStatus.waiting ∨ t.status = TicketStatus.missed))) = true →
      (apiCancel db orgId number now).1 = db) := by
  have e : apiCancel db orgId number now
      = ({ db with tickets := db.tickets.map (cancelUpdate orgId number now) },
         CancelResult.okCancelled
           (db.tickets.any (fun t => decide (t.orgId = orgId ∧ t.number = number ∧
             (t.status = TicketStatus.waiting ∨ t.status = TicketStatus.missed))))) := by
    simp [apiCancel, horg, hnum]
  have hfix : ∀ t : Ticket,
      (t.status ≠ TicketStatus.waiting ∧ t.status ≠ TicketStatus.missed) ∨
        t.number ≠ number ∨ t.orgId ≠ orgId →
      cancelUpdate orgId number now t = t := by
    intro t ht
    unfold cancelUpdate
    rw [if_neg]
    rintro ⟨ha, hb, hc⟩
    rcases ht with ⟨hw, hm⟩ | h | h
    · rcases hc with hc | hc
      · exact hw hc
      · exact hm hc
    · exact h hb
    · exact h ha
  refine ⟨by rw [e], by rw [e], by rw [e], hfix, ?_⟩
  intro hall
  rw [e]
  have : db.tickets.map (cancelUpdate orgId number now) = db.tickets := by
    conv_rhs => rw [← List.map_id db.tickets]
    apply List.map_congr_left
    intro t htmem
    have := (List.all_eq_true.mp hall) t htmem
    apply hfix
    simp at this
    tauto
  rw [this]

/-- Closed witness for `cancel_spec`: cancelling the single waiting ticket
numbered 1 flips it to `cancelled` and leaves the counters alone. -/
theorem cancel_spec_witness :
    (apiCancel { st := some { nextNumber := 2, currentNumber := 0, updatedAt := 0 },
                 tickets := [{ id := 1, orgId := "o", number := 1,
                               status := TicketStatus.waiting, createdAt := 0,
                               updatedAt := 0, servedAt := none }] } "o" 1 9).1.st
      = some { nextNumber := 2, currentNumber := 0, updatedAt := 0 } :=
  (cancel_spec
    { st := some { nextNumber := 2, currentNumber := 0, updatedAt := 0 },
      tickets := [{ id := 1, orgId := "o", number := 1,
                    status := TicketStatus.waiting, createdAt := 0,
                    updatedAt := 0, servedAt := none }] }
    "o" 1 9 (by decide) (by decide)).1

/-! ### C6 and C10: explicit mark-served -/

/-- C6: marking a `waiting` or `missed` ticket served sets its status to
`served` and stamps `served_at`, and increments `current_number` exactly
when the ticket's number equals `nowServing = current_number + 1`; the
pointer is never advanced otherwise. -/
theorem markServed_spec (db : OrgDB) (st : OrgState) (ticketId : Nat)
    (now : Int) (t : Ticket)
    (hid : ticketId ≠ 0)
    (hfind : db.tickets.find? (fun u => u.id == ticketId) = some t)
    (hstatus : t.status = TicketStatus.waiting ∨ t.status = TicketStatus.missed)
    (hst : db.st = some st) :
    (apiTicketServed db ticketId now).1.tickets
        = db.tickets.map (serveById ticketId now) ∧
    (∀ u : Ticket, u.id = ticketId → serveById ticketId now u
        = { u with status := TicketStatus.served, servedAt := some now,
                   updatedAt := now }) ∧
    (apiTicketServed db ticketId now).1.st
        = some (if t.number = st.currentNumber + 1
                then { st with currentNumber := st.currentNumber + 1,
                               updatedAt := now }
                else st) ∧
    (((apiTicketServed db ticketId now).1.st.map OrgState.currentNumber).getD 0
        = st.currentNumber + (if t.number = st.currentNumber + 1 then 1 else 0)) := by
  have hns : t.status ≠ TicketStatus.served := by
    rcases hstatus with h | h <;> simp [h]
  have e : apiTicketServed db ticketId now
      = (if t.number = st.currentNumber + 1 then
          ({ st := some { st with currentNumber := st.currentNumber + 1,
                                  updatedAt := now },
             tickets := db.tickets.map (serveById ticketId now) },
           ServedResult.servedNow (st.currentNumber + 1) (st.currentNumber + 2)
             (max 0 (st.nextNumber - 1)))
         else
          ({ st := db.st, tickets := db.tickets.map (serveById ticketId now) },
           ServedResult.servedNow st.currentNumber (st.currentNumber + 1)
             (max 0 (st.nextNumber - 1)))) := by
    simp [apiTicketServed, hid, hfind, hns, hst]
  refine ⟨?_, ?_, ?_, ?_⟩
  · rw [e]
    split <;> rfl
  · intro u hu
    simp [serveById, hu]
  · rw [e]
    split <;> simp [hst]
  · rw [e]
    split <;> simp [hst]

/-- Closed witness for `markServed_spec`: serving the waiting ticket
numbered 1 while `nowServing = 1` advances the counter to 1. -/
theorem markServed_spec_witness :
    (apiTicketServed { st := some { nextNumber := 2, currentNumber := 0, updatedAt := 0 },
                       tickets := [{ id := 1, orgId := "o", number := 1,
                                     status := TicketStatus.waiting, createdAt := 0,
                                     updatedAt := 0, servedAt := none }] } 1 9).1.st
      = some { nextNumber := 2, currentNumber := 1, updatedAt := 9 } := by
  have h := (markServed_spec
    { st := some { nextNumber := 2, currentNumber := 0, updatedAt := 0 },
      tickets := [{ id := 1, orgId := "o", number := 1,
                    status := TicketStatus.waiting, createdAt := 0,
                    updatedAt := 0, servedAt := none }] }
    { nextNumber := 2, currentNumber := 0, updatedAt := 0 }
    1 9
    { id := 1, orgId := "o", number := 1, status := TicketStatus.waiting,
      createdAt := 0, updatedAt := 0, servedAt := none }
    (by decide) (by decide) (Or.inl rfl) rfl).2.2.1
  simpa using h

/-- C10: marking an already `served` ticket served again is a pure no-op
with a success answer: the whole database — ticket status, `served_at`,
`updated_at` and both counters — is returned unchanged, so
`current_number` can never be incremented twice for the same ticket. -/
theorem markServed_already_served_noop (db : OrgDB) (ticketId : Nat)
    (now : Int) (t : Ticket)
    (hid : ticketId ≠ 0)
    (hfind : db.tickets.find? (fun u => u.id == ticketId) = some t)
    (hstatus : t.status = TicketStatus.served) :
    apiTicketServed db ticketId now = (db, ServedResult.alreadyServed) := by
  simp [apiTicketServed, hid, hfind, hstatus]

/-- Closed witness for `markServed_already_served_noop`. -/
theorem markServed_already_served_noop_witness :
    apiTicketServed { st := some { nextNumber := 3, currentNumber := 1, updatedAt := 0 },
                      tickets := [{ id := 2, orgId := "o", number := 2,
                                    status := TicketStatus.served, createdAt := 0,
                                    updatedAt := 1, servedAt := some 1 }] } 2 9
      = ({ st := some { nextNumber := 3, currentNumber := 1, updatedAt := 0 },
           tickets := [{ id := 2, orgId := "o", number := 2,
                         status := TicketStatus.served, createdAt := 0,
                         updatedAt := 1, servedAt := some 1 }] },
         ServedResult.alreadyServed) :=
  markServed_already_served_noop
    { st := some { nextNumber := 3, currentNumber := 1, updatedAt := 0 },
      tickets := [{ id := 2, orgId := "o", number := 2,
                    status := TicketStatus.served, createdAt := 0,
                    updatedAt := 1, servedAt := some 1 }] }
    2 9
    { id := 2, orgId := "o", number := 2, status := TicketStatus.served,
      createdAt := 0, updatedAt := 1, servedAt := some 1 }
    (by decide) (by decide) rfl

/-! ### Estimator positivity and the issuance snapshot (C8) -/

theorem six_mul_length_le_sum (l : List Int) (h : ∀ x ∈ l, (6 : Int) ≤ x) :
    6 * (l.length : Int) ≤ l.sum := by
  induction l with
  | nil => simp
  | cons x xs ih =>
    have hx := h x (by simp)
    have hxs := ih (fun y hy => h y (by simp [hy]))
    simp only [List.length_cons, List.sum_cons]
    push_cast
    omega

theorem mem_collectDiffsSec_plausibleSec (l : List Int) (d : Int)
    (hd : d ∈ collectDiffsSec l []) : plausibleSec d = true := by
  rw [collectDiffsSec_eq_take _ [] (by simp)] at hd
  have := List.mem_of_mem_take hd
  simp only [List.nil_append, List.mem_filter] at this
  exact this.2

/-- Every numeric answer of the estimator is at least 6 seconds (each
retained difference is strictly above the 5-second floor), in particular
never the JavaScript-falsy 0. -/
theorem computeAvgServiceSec_ge_six (l : List Int) (a : Int)
    (h : computeAvgServiceSec l = some a) : 6 ≤ a := by
  simp only [computeAvgServiceSec] at h
  split at h
  · exact absurd h (by simp)
  · split at h
    · exact absurd h (by simp)
    · rename_i h1 h2
      have hinj : jsRoundDiv (collectDiffsSec (l.take 6) []).sum
          ((collectDiffsSec (l.take 6) []).length : Int) = a := by
        injection h
      have hall : ∀ x ∈ collectDiffsSec (l.take 6) [], (6 : Int) ≤ x := by
        intro x hx
        have hp := mem_collectDiffsSec_plausibleSec (l.take 6) x hx
        simp only [plausibleSec, Bool.and_eq_true, decide_eq_true_eq] at hp
        omega
      have hsum := six_mul_length_le_sum _ hall
      have hlen : 3 ≤ (collectDiffsSec (l.take 6) []).length := by omega
      rw [← hinj]
      unfold jsRoundDiv
      rw [Int.le_ediv_iff_mul_le (by omega)]
      omega

/-- The full effect of a successful `POST /api/take` in terms of the
effective counters: the committed state and the response record. -/
theorem apiTake_valid_eq (geo : List (String × List String)) (orgId : String)
    (db : OrgDB) (newId : Nat) (now : Int)
    (hv : validateOrgId geo orgId = true) :
    apiTake geo orgId db newId now
      = ({ st := some { nextNumber := effNext db + 1, currentNumber := effCur db,
                        updatedAt := now },
           tickets := db.tickets ++
             [{ id := newId, orgId := orgId, number := effNext db,
                status := TicketStatus.waiting, createdAt := now,
                updatedAt := now, servedAt := none }] },
         TakeResult.okTake
           { ticketId := newId, number := effNext db,
             nowServing := effCur db + 1, lastNumber := effNext db,
             avgServiceSec := computeAvgServiceSec (servedTimesDesc (db.tickets ++
               [{ id := newId, orgId := orgId, number := effNext db,
                  status := TicketStatus.waiting, createdAt := now,
                  updatedAt := now, servedAt := none }])),
             remaining := max 0 (effNext db - (effCur db + 1)),
             etaMinutes :=
               if (computeAvgServiceSec (servedTimesDesc (db.tickets ++
                     [{ id := newId, orgId := orgId, number := effNext db,
                        status := TicketStatus.waiting, createdAt := now,
                        updatedAt := now, servedAt := none }]))).getD 0 = 0
               then none
               else some (jsRoundDiv (max 0 (effNext db - (effCur db + 1)) *
                 (computeAvgServiceSec (servedTimesDesc (db.tickets ++
                   [{ id := newId, orgId := orgId, number := effNext db,
                      status := TicketStatus.waiting, createdAt := now,
                      updatedAt := now, servedAt := none }]))).getD 0) 60) }) := by
  cases hdb : db.st with
  | none => simp [apiTake, hv, hdb, effNext, effCur, freshOrgState]
  | some s => simp [apiTake, hv, hdb, effNext, effCur, freshOrgState]

/-- C8: the snapshot returned by a successful issuance has
`nowServing = current_number + 1`, `number = lastNumber =` the
post-increment `next_number - 1` (the created ticket's own number), the
estimator value over the committed tickets,
`remaining = max(0, number - nowServing)`, and an ETA that is unknown
exactly when the estimator has too few samples and otherwise the seconds
product `remaining * avg`, reported as minutes rounded to the nearest
integer. -/
theorem take_snapshot_spec (geo : List (String × List String)) (orgId : String)
    (db : OrgDB) (newId : Nat) (now : Int)
    (hv : validateOrgId geo orgId = true) :
    ∃ resp : TakeResp,
      (apiTake geo orgId db newId now).2 = TakeResult.okTake resp ∧
      resp.nowServing = effCur db + 1 ∧
      resp.number = effNext db ∧
      resp.lastNumber = resp.number ∧
      (apiTake geo orgId db newId now).1.st
          = some { nextNumber := effNext db + 1, currentNumber := effCur db,
                   updatedAt := now } ∧
      resp.lastNumber = (effNext db + 1) - 1 ∧
      resp.avgServiceSec = computeAvgServiceSec
          (servedTimesDesc (apiTake geo orgId db newId now).1.tickets) ∧
      resp.remaining = max 0 (resp.number - resp.nowServing) ∧
      (resp.avgServiceSec = none → resp.etaMinutes = none) ∧
      (∀ a : Int, resp.avgServiceSec = some a →
        resp.etaMinutes = some (jsRoundDiv (max 0 (resp.number - resp.nowServing) * a) 60)) := by
  rw [apiTake_valid_eq geo orgId db newId now hv]
  refine ⟨_, rfl, rfl, rfl, rfl, rfl, ?_, rfl, ?_, ?_, ?_⟩
  · show effNext db = effNext db + 1 - 1
    omega
  · rfl
  · intro hnone
    dsimp only at hnone ⊢
    rw [hnone]
    rfl
  · intro a ha
    have h6 : 6 ≤ a := by
      dsimp only at ha
      exact computeAvgServiceSec_ge_six _ a ha
    dsimp only at ha ⊢
    rw [ha]
    simp only [Option.getD_some]
    rw [if_neg (by omega)]

/-- Closed witness for `take_snapshot_spec`: a take on a fresh
organization answers `nowServing = 1`. -/
theorem take_snapshot_spec_witness :
    ∃ resp : TakeResp,
      (apiTake geoOK "o" dbInit 1 0).2 = TakeResult.okTake resp ∧
      resp.nowServing = effCur dbInit + 1 :=
  match take_snapshot_spec geoOK "o" dbInit 1 0 rfl with
  | ⟨resp, h1, h2, _⟩ => ⟨resp, h1, h2⟩

/-! ### C1: issuance -/

/-- The numbers handed out by `n` consecutive issuances form the
arithmetic progression starting at the effective `next_number`. -/
theorem takeNumbers_eq (geo : List (String × List String)) (orgId : String)
    (hv : validateOrgId geo orgId = true) :
    ∀ (n : Nat) (db : OrgDB),
      takeNumbers geo orgId n db
        = (List.range n).map (fun i : Nat => effNext db + (i : Int)) := by
  intro n
  induction n with
  | zero =>
    intro db
    simp [takeNumbers]
  | succ m ih =>
    intro db
    rw [takeNumbers, apiTake_valid_eq geo orgId db 0 0 hv]
    rw [ih]
    have heff : effNext
        ({ st := some { nextNumber := effNext db + 1, currentNumber := effCur db,
                        updatedAt := 0 },
           tickets := db.tickets ++
             [{ id := 0, orgId := orgId, number := effNext db,
                status := TicketStatus.waiting, createdAt := 0,
                updatedAt := 0, servedAt := none }] } : OrgDB) = effNext db + 1 := by
      simp [effNext]
    rw [heff]
    have hfun : ((fun i : Nat => effNext db + (i : Int)) ∘ Nat.succ)
        = (fun i : Nat => (effNext db + 1) + (i : Int)) := by
      funext i
      simp only [Function.comp]
      push_cast
      ring
    rw [List.range_succ_eq_map, List.map_cons, List.map_map, hfun]
    simp [takeRespNumber]

/-- C1: a take with an `orgId` unknown to the geo catalog fails with the
invalid-organization error and changes nothing; a valid take appends
exactly one new `waiting` ticket carrying the current effective
`next_number`, increments `next_number` by one, and reports that number —
so `n` consecutive successful issuances hand out the consecutive
progression `next, next+1, ...`: `n` distinct, strictly increasing,
gap-free numbers. -/
theorem take_issuance_spec (geo : List (String × List String)) (orgId : String)
    (db : OrgDB) (newId : Nat) (now : Int) (n : Nat) :
    (validateOrgId geo orgId = false →
      apiTake geo orgId db newId now = (db, TakeResult.invalidOrg)) ∧
    (validateOrgId geo orgId = true →
      (apiTake geo orgId db newId now).1.tickets
          = db.tickets ++ [{ id := newId, orgId := orgId, number := effNext db,
                             status := TicketStatus.waiting, createdAt := now,
                             updatedAt := now, servedAt := none }] ∧
      (apiTake geo orgId db newId now).1.st
          = some { nextNumber := effNext db + 1, currentNumber := effCur db,
                   updatedAt := now } ∧
      takeRespNumber (apiTake geo orgId db newId now).2 = effNext db) ∧
    (validateOrgId geo orgId = true →
      takeNumbers geo orgId n db
          = (List.range n).map (fun i : Nat => effNext db + (i : Int)) ∧
      (takeNumbers geo orgId n db).Pairwise (· < ·)) := by
  refine ⟨?_, ?_, ?_⟩
  · intro hf
    simp [apiTake, hf]
  · intro hv
    rw [apiTake_valid_eq geo orgId db newId now hv]
    exact ⟨rfl, rfl, rfl⟩
  · intro hv
    have he := takeNumbers_eq geo orgId hv n db
    refine ⟨he, ?_⟩
    rw [he]
    exact (List.sorted_lt_range n).map _ (fun a b hab => by have h : a < b := hab; omega)

/-- Closed witness for `take_issuance_spec`: three takes on a fresh
organization hand out the numbers 1, 2, 3. -/
theorem take_issuance_spec_witness :
    takeNumbers geoOK "o" 3 dbInit = [1, 2, 3] := by
  have h := ((take_issuance_spec geoOK "o" dbInit 0 0 3).2.2 rfl).1
  rw [h]
  decide

/-! ### C5: the counter invariant over operation sequences -/

theorem serveTicketAt_number (k now : Int) (t : Ticket) :
    (serveTicketAt k now t).number = t.number := by
  unfold serveTicketAt
  split <;> rfl

theorem serveById_number (ticketId : Nat) (now : Int) (t : Ticket) :
    (serveById ticketId now t).number = t.number := by
  unfold serveById
  split <;> rfl

theorem cancelUpdate_number (orgId : String) (number now : Int) (t : Ticket) :
    (cancelUpdate orgId number now t).number = t.number := by
  unfold cancelUpdate
  split <;> rfl

theorem reconcileOne_number (tid : Nat) (orgId : String)
    (number nowServing now : Int) (t : Ticket) :
    (reconcileOne tid orgId number nowServing now t).number = t.number := by
  simp only [reconcileOne]
  split <;> rfl

theorem checkInv_iff (db : OrgDB) : checkInv db = true ↔
    (db.st = none ∧ db.tickets = []) ∨
    (∃ s, db.st = some s ∧ s.currentNumber + 1 ≤ s.nextNumber ∧
      ∀ t ∈ db.tickets, t.number + 1 ≤ s.nextNumber) := by
  cases hdb : db.st with
  | none => simp [checkInv, hdb, List.isEmpty_iff]
  | some s => simp [checkInv, hdb, List.all_eq_true]

theorem effCur_lt_effNext (db : OrgDB) (h : checkInv db = true) :
    effCur db + 1 ≤ effNext db := by
  rcases (checkInv_iff db).mp h with ⟨hn, _⟩ | ⟨s, hs, hc, _⟩
  · simp [effCur, effNext, hn, freshOrgState]
  · simp only [effCur, effNext, hs, Option.getD_some]
    exact hc

theorem ticket_lt_effNext (db : OrgDB) (h : checkInv db = true) :
    ∀ t ∈ db.tickets, t.number + 1 ≤ effNext db := by
  rcases (checkInv_iff db).mp h with ⟨hn, hemp⟩ | ⟨s, hs, hc, hts⟩
  · simp [hemp]
  · intro t ht
    simpa [effNext, hs] using hts t ht

theorem tickets_empty_of_st_none (db : OrgDB) (h : checkInv db = true)
    (hdb : db.st = none) : db.tickets = [] := by
  rcases (checkInv_iff db).mp h with ⟨_, he⟩ | ⟨s, hs, _, _⟩
  · exact he
  · rw [hdb] at hs
    cases hs

theorem checkInv_apiTake (geo : List (String × List String)) (orgId : String)
    (db : OrgDB) (newId : Nat) (now : Int) (h : checkInv db = true) :
    checkInv (apiTake geo orgId db newId now).1 = true := by
  by_cases hv : validateOrgId geo orgId = true
  · rw [apiTake_valid_eq geo orgId db newId now hv, checkInv_iff]
    right
    refine ⟨_, rfl, ?_, ?_⟩
    · show effCur db + 1 ≤ effNext db + 1
      have := effCur_lt_effNext db h
      omega
    · intro t ht
      show t.number + 1 ≤ effNext db + 1
      rcases List.mem_append.mp ht with ht | ht
      · have := ticket_lt_effNext db h t ht
        omega
      · have heq : t = { id := newId, orgId := orgId, number := effNext db,
                         status := TicketStatus.waiting, createdAt := now,
                         updatedAt := now, servedAt := none } := by simpa using ht
        subst heq
        show effNext db + 1 ≤ effNext db + 1
        omega
  · have hf : validateOrgId geo orgId = false := by simpa using hv
    simpa [apiTake, hf] using h

theorem checkInv_apiAdminNext (db : OrgDB) (orgId : String) (now : Int)
    (h : checkInv db = true) :
    checkInv (apiAdminNext db orgId now).1 = true := by
  by_cases hO : orgId = ""
  · simpa [apiAdminNext, hO] using h
  · cases hdb : db.st with
    | none => simpa [apiAdminNext, hO, hdb] using h
    | some s =>
      have e : apiAdminNext db orgId now
          = (if s.currentNumber + 1 < s.nextNumber then
              ({ st := some { s with currentNumber := s.currentNumber + 1,
                                     updatedAt := now },
                 tickets := db.tickets.map (serveTicketAt (s.currentNumber + 1) now) },
               NextResult.advanced (s.currentNumber + 1) (s.currentNumber + 2)
                 (max 0 (s.nextNumber - 1))
                 (computeAvgServiceSec (servedTimesDesc
                   (db.tickets.map (serveTicketAt (s.currentNumber + 1) now)))))
             else
              (db, NextResult.emptyQueue s.currentNumber (s.currentNumber + 1)
                (max 0 (s.nextNumber - 1)))) := by
        simp [apiAdminNext, hO, hdb]
      rw [e]
      split
      · rename_i hlt
        rw [checkInv_iff]
        right
        refine ⟨_, rfl, ?_, ?_⟩
        · show s.currentNumber + 1 + 1 ≤ s.nextNumber
          omega
        · intro t ht
          rcases List.mem_map.mp ht with ⟨w, hw, rfl⟩
          show (serveTicketAt (s.currentNumber + 1) now w).number + 1 ≤ s.nextNumber
          rw [serveTicketAt_number]
          have := ticket_lt_effNext db h w hw
          simpa [effNext, hdb] using this
      · exact h

theorem checkInv_apiTicketServed (db : OrgDB) (ticketId : Nat) (now : Int)
    (h : checkInv db = true) :
    checkInv (apiTicketServed db ticketId now).1 = true := by
  by_cases hid : ticketId = 0
  · simpa [apiTicketServed, hid] using h
  · cases hfind : db.tickets.find? (fun u => u.id == ticketId) with
    | none => simpa [apiTicketServed, hid, hfind] using h
    | some t =>
      by_cases hserved : t.status = TicketStatus.served
      · simpa [apiTicketServed, hid, hfind, hserved] using h
      · cases hdb : db.st with
        | none =>
          have hemp := tickets_empty_of_st_none db h hdb
          rw [hemp] at hfind
          simp at hfind
        | some s =>
          have e : apiTicketServed db ticketId now
              = (if t.number = s.currentNumber + 1 then
                  ({ st := some { s with currentNumber := s.currentNumber + 1,
                                         updatedAt := now },
                     tickets := db.tickets.map (serveById ticketId now) },
                   ServedResult.servedNow (s.currentNumber + 1) (s.currentNumber + 2)
                     (max 0 (s.nextNumber - 1)))
                 else
                  ({ st := some s, tickets := db.tickets.map (serveById ticketId now) },
                   ServedResult.servedNow s.currentNumber (s.currentNumber + 1)
                     (max 0 (s.nextNumber - 1)))) := by
            simp [apiTicketServed, hid, hfind, hserved, hdb]
          rw [e]
          have htick : ∀ w ∈ db.tickets,
              (serveById ticketId now w).number + 1 ≤ s.nextNumber := by
            intro w hw
            rw [serveById_number]
            have := ticket_lt_effNext db h w hw
            simpa [effNext, hdb] using this
          split
          · rename_i hnum
            rw [checkInv_iff]
            right
            refine ⟨_, rfl, ?_, ?_⟩
            · show s.currentNumber + 1 + 1 ≤ s.nextNumber
              have hmem := List.mem_of_find?_eq_some hfind
              have hlt := ticket_lt_effNext db h t hmem
              simp only [effNext, hdb, Option.getD_some] at hlt
              omega
            · intro u hu
              rcases List.mem_map.mp hu with ⟨w, hw, rfl⟩
              exact htick w hw
          · rw [checkInv_iff]
            right
            refine ⟨s, rfl, ?_, ?_⟩
            · have := effCur_lt_effNext db h
              simpa [effCur, effNext, hdb] using this
            · intro u hu
              rcases List.mem_map.mp hu with ⟨w, hw, rfl⟩
              exact htick w hw

theorem checkInv_apiCancel (db : OrgDB) (orgId : String) (number now : Int)
    (h : checkInv db = true) :
    checkInv (apiCancel db orgId number now).1 = true := by
  by_cases hg : orgId = "" ∨ number = 0
  · simpa [apiCancel, hg] using h
  · have e : (apiCancel db orgId number now).1
        = { st := db.st, tickets := db.tickets.map (cancelUpdate orgId number now) } := by
      simp [apiCancel, hg]
    rw [e, checkInv_iff]
    cases hdb : db.st with
    | none =>
      left
      have hemp := tickets_empty_of_st_none db h hdb
      simp [hdb, hemp]
    | some s =>
      right
      refine ⟨s, by simp [hdb], ?_, ?_⟩
      · have := effCur_lt_effNext db h
        simpa [effCur, effNext, hdb] using this
      · intro u hu
        rcases List.mem_map.mp hu with ⟨w, hw, rfl⟩
        rw [cancelUpdate_number]
        have := ticket_lt_effNext db h w hw
        simpa [effNext, hdb] using this

theorem checkInv_reconcile (db : OrgDB) (orgId : String) (number now : Int)
    (h : checkInv db = true) :
    checkInv (apiTicketGetReconcile db orgId number now) = true := by
  by_cases hO : orgId = ""
  · simpa [apiTicketGetReconcile, hO] using h
  · cases hdb : db.st with
    | none =>
      have hemp := tickets_empty_of_st_none db h hdb
      have e : apiTicketGetReconcile db orgId number now
          = { st := some (freshOrgState now), tickets := [] } := by
        simp [apiTicketGetReconcile, hO, hdb, hemp, latestByNumber]
      rw [e, checkInv_iff]
      right
      refine ⟨_, rfl, ?_, ?_⟩
      · show (freshOrgState now).currentNumber + 1 ≤ (freshOrgState now).nextNumber
        simp [freshOrgState]
      · simp
    | some s =>
      have hcur : s.currentNumber + 1 ≤ s.nextNumber := by
        have := effCur_lt_effNext db h
        simpa [effCur, effNext, hdb] using this
      have htick : ∀ w ∈ db.tickets, w.number + 1 ≤ s.nextNumber := by
        intro w hw
        have := ticket_lt_effNext db h w hw
        simpa [effNext, hdb] using this
      have e : apiTicketGetReconcile db orgId number now
          = (if number = 0 then { st := some s, tickets := db.tickets }
             else
               match latestByNumber db.tickets number with
               | none => { st := some s, tickets := db.tickets }
               | some row =>
                 { st := some s, tickets := db.tickets.map (fun t =>
                     if t.id = row.id
                     then reconcileOne row.id row.orgId row.number
                       (s.currentNumber + 1) now t
                     else t) }) := by
        simp [apiTicketGetReconcile, hO, hdb]
      have hbase : checkInv { st := some s, tickets := db.tickets } = true := by
        rw [checkInv_iff]
        right
        exact ⟨s, rfl, hcur, htick⟩
      rw [e]
      split
      · exact hbase
      · split
        · exact hbase
        · rename_i row hrow
          rw [checkInv_iff]
          right
          refine ⟨s, rfl, hcur, ?_⟩
          intro u hu
          rcases List.mem_map.mp hu with ⟨w, hw, rfl⟩
          have hwlt := htick w hw
          show (if w.id = row.id
                then reconcileOne row.id row.orgId row.number
                  (s.currentNumber + 1) now w
                else w).number + 1 ≤ s.nextNumber
          split
          · rw [reconcileOne_number]
            exact hwlt
          · exact hwlt

theorem checkInv_stepOp (db : OrgDB) (op : Op) (h : checkInv db = true) :
    checkInv (stepOp db op) = true := by
  cases op with
  | issue valid newId now => exact checkInv_apiTake _ _ db newId now h
  | advance now => exact checkInv_apiAdminNext db _ now h
  | markServed ticketId now => exact checkInv_apiTicketServed db ticketId now h
  | cancelTicket number now => exact checkInv_apiCancel db _ number now h
  | reconcile number now => exact checkInv_reconcile db _ number now h

/-- C5 (amended): after any sequence of core operations — issuance,
admin advancement, explicit mark-served, cancellation, lazy
reconciliation — starting from the empty database, every issued ticket
number is at most `nextNumber - 1`, and `nextNumber >= currentServedNumber
+ 1` (the claimed bound `+ 2` fails; this is the bound the code keeps). -/
theorem run_invariant (ops : List Op) : checkInv (runOps ops dbInit) = true := by
  have haux : ∀ (l : List Op) (db : OrgDB), checkInv db = true →
      checkInv (runOps l db) = true := by
    intro l
    induction l with
    | nil =>
      intro db h
      exact h
    | cons op rest ih =>
      intro db h
      exact ih _ (checkInv_stepOp db op h)
  exact haux ops dbInit rfl

/-- C5 counterexample: issue one ticket on a fresh organization and
advance once; the state becomes `nextNumber = 2, currentServedNumber = 1`,
which violates the claimed invariant `nextNumber >= currentServedNumber + 2`
(while the amended bound and the ticket bound still hold). -/
theorem invariant_claimed_counterexample :
    runOps [Op.issue true 1 0, Op.advance 0] dbInit
      = { st := some { nextNumber := 2, currentNumber := 1, updatedAt := 0 },
          tickets := [{ id := 1, orgId := "o", number := 1,
                        status := TicketStatus.served, createdAt := 0,
                        updatedAt := 0, servedAt := some 0 }] } ∧
    invariantClaimed (runOps [Op.issue true 1 0, Op.advance 0] dbInit) = false := by
  constructor <;> rfl
